import Mathlib

/-!
# Verification of the rjw-uktides decoding core

This file gives a shallow embedding of the decoding layer of the
rjw-uktides crate (the UKHO EasyTide JSON decoders) and proves the
frozen specification claims against it.

Modelling conventions:
* Rust `String` values on the wire are `List Char` (the wire data is
  ASCII, so byte indices and char indices coincide).
* JSON numbers are `ℚ` (the decoders only pass numbers through; no
  float arithmetic is performed while decoding).
* `chrono::DateTime<Utc>` is an `Int` count of seconds since the Unix
  epoch; `jiff::Zoned` is a `Zoned` pair of such an instant and a
  named time zone.  Sub-second precision is below the resolution of
  this model (the civil decoder discards fractions entirely and the
  claims never depend on sub-second values).
* `serde` map decoding is modelled by key lookup: required fields are
  looked up by name, unknown keys are ignored, exactly as for a
  derived deserializer without `deny_unknown_fields`.
-/

/-- A JSON value, as seen by the decoders. -/
inductive Json where
  | null : Json
  | bool (b : Bool) : Json
  | num (q : ℚ) : Json
  | str (s : List Char) : Json
  | arr (xs : List Json) : Json
  | obj (kvs : List (List Char × Json)) : Json

/-- Shorthand for wire strings: the character list of a string literal. -/
def toL (s : String) : List Char := s.toList

/-- Decode errors, mirroring the `serde` error constructors the source
uses (`invalid_value` with an `Unexpected` payload and an expected
description, `invalid_type`, `missing_field`, `invalid_length`, and
`custom` for errors mapped through `serde::de::Error::custom`). -/
inductive DecodeError where
  | invalidValueUnsigned (got : Nat) (expected : List Char) : DecodeError
  | invalidValueSigned (got : Int) (expected : List Char) : DecodeError
  | invalidType (expected : List Char) : DecodeError
  | missingField (name : List Char) : DecodeError
  | invalidLength (len : Nat) (expected : List Char) : DecodeError
  | custom (msg : List Char) : DecodeError
deriving DecidableEq

instance {ε α : Type} [DecidableEq ε] [DecidableEq α] : DecidableEq (Except ε α) :=
  fun x y =>
    match x, y with
    | .ok a, .ok b =>
      if h : a = b then .isTrue (by rw [h]) else .isFalse (fun hh => h (Except.ok.inj hh))
    | .error a, .error b =>
      if h : a = b then .isTrue (by rw [h]) else .isFalse (fun hh => h (Except.error.inj hh))
    | .ok _, .error _ => .isFalse (fun hh => Except.noConfusion hh)
    | .error _, .ok _ => .isFalse (fun hh => Except.noConfusion hh)

/-- Whether an `Except` result is a success. -/
def Except.isOkB {ε α : Type} : Except ε α → Bool
  | .ok _ => true
  | .error _ => false

/-- First-match key lookup in a JSON object's field list. -/
def lookupKey : List (List Char × Json) → List Char → Option Json
  | [], _ => none
  | (k, v) :: rest, key => if k = key then some v else lookupKey rest key

/-- A required field: `serde` reports `missing field` when absent. -/
def getField (kvs : List (List Char × Json)) (name : List Char) : Except DecodeError Json :=
  match lookupKey kvs name with
  | some v => .ok v
  | none => .error (.missingField name)

/-- Deserializing a `String`: only a JSON string is accepted. -/
def asStr : Json → Except DecodeError (List Char)
  | .str s => .ok s
  | _ => .error (.invalidType (toL "a string"))

/-- Deserializing a JSON number as an integer (for the enum decoders). -/
def asInt : Json → Except DecodeError Int
  | .num q => if q.den = 1 then .ok q.num else .error (.invalidType (toL "an integer"))
  | _ => .error (.invalidType (toL "an integer"))

/-- Deserializing an `f64`-backed newtype: any JSON number is accepted. -/
def asNum : Json → Except DecodeError ℚ
  | .num q => .ok q
  | _ => .error (.invalidType (toL "a number"))

/-- Deserializing a `bool`. -/
def asBool : Json → Except DecodeError Bool
  | .bool b => .ok b
  | _ => .error (.invalidType (toL "a boolean"))

/-- An `Option<String>` field: absent or `null` yields `None`. -/
def optStringField (kvs : List (List Char × Json)) (name : List Char) :
    Except DecodeError (Option (List Char)) :=
  match lookupKey kvs name with
  | none => .ok none
  | some .null => .ok none
  | some (.str s) => .ok (some s)
  | some _ => .error (.invalidType (toL "a string"))

/-- Element-wise decoding of a JSON sequence, failing on the first bad
element, as `Vec::deserialize` does. -/
def mapExcept {α β : Type} (f : α → Except DecodeError β) : List α → Except DecodeError (List β)
  | [] => .ok []
  | x :: xs =>
    match f x with
    | .error e => .error e
    | .ok y =>
      match mapExcept f xs with
      | .error e => .error e
      | .ok ys => .ok (y :: ys)

/-! ## Civil datetimes and epoch arithmetic -/

/-- A civil (timezone-less) calendar date and time of day. -/
structure CivilDateTime where
  year : Nat
  month : Nat
  day : Nat
  hour : Nat
  minute : Nat
  second : Nat
deriving DecidableEq

/-- Gregorian leap-year test. -/
def isLeap (y : Int) : Bool :=
  Int.emod y 4 == 0 && (Int.emod y 100 != 0 || Int.emod y 400 == 0)

/-- Days in a Gregorian month. -/
def daysInMonth (y : Int) (m : Nat) : Nat :=
  if m = 2 then (if isLeap y then 29 else 28)
  else if m = 4 ∨ m = 6 ∨ m = 9 ∨ m = 11 then 30
  else 31

/-- Calendar validity, as `chrono` enforces when parsing
`%Y-%m-%dT%H:%M:%S` (months 1–12, days within the month, 24-hour
wall-clock fields). -/
def validCivil (c : CivilDateTime) : Bool :=
  decide (1 ≤ c.month ∧ c.month ≤ 12 ∧ 1 ≤ c.day ∧
    c.day ≤ daysInMonth (c.year : Int) c.month ∧
    c.hour ≤ 23 ∧ c.minute ≤ 59 ∧ c.second ≤ 59)

/-- Days from the Unix epoch to a civil date (Gregorian calendar,
standard era-based algorithm). -/
def daysFromCivil (y : Int) (m d : Nat) : Int :=
  let y' : Int := if m ≤ 2 then y - 1 else y
  let era : Int := Int.ediv y' 400
  let yoe : Nat := (y' - era * 400).toNat
  let mp : Nat := if 2 < m then m - 3 else m + 9
  let doy : Nat := (153 * mp + 2) / 5 + d - 1
  let doe : Nat := yoe * 365 + yoe / 4 - yoe / 100 + doy
  era * 146097 + (doe : Int) - 719468

/-- Civil date from a count of days since the Unix epoch (inverse of
`daysFromCivil`). -/
def civilFromDays (z : Int) : Int × Nat × Nat :=
  let z' : Int := z + 719468
  let era : Int := Int.ediv z' 146097
  let doe : Nat := (z' - era * 146097).toNat
  let yoe : Nat := (doe - doe / 1460 + doe / 36524 - doe / 146096) / 365
  let doy : Nat := doe - (365 * yoe + yoe / 4 - yoe / 100)
  let mp : Nat := (5 * doy + 2) / 153
  let d : Nat := doy - (153 * mp + 2) / 5 + 1
  let m : Nat := if mp < 10 then mp + 3 else mp - 9
  (era * 400 + (yoe : Int) + (if m ≤ 2 then 1 else 0), m, d)

/-- Seconds since the Unix epoch of a civil datetime read as UTC. -/
def civilToTimestamp (c : CivilDateTime) : Int :=
  86400 * daysFromCivil (c.year : Int) c.month c.day
    + 3600 * (c.hour : Int) + 60 * (c.minute : Int) + (c.second : Int)

example : daysFromCivil 1970 1 1 = 0 := by decide
example : daysFromCivil 2025 8 17 = 20317 := by decide
example : civilFromDays 20317 = (2025, 8, 17) := by decide
example : civilFromDays (-1) = (1969, 12, 31) := by decide

/-! ## Time zones and `jiff::Zoned` -/

/-- Day of month of the last Sunday of the given month. -/
def lastSundayOfMonth (y : Int) (m : Nat) : Nat :=
  let L := daysInMonth y m
  L - (Int.emod (daysFromCivil y m L + 4) 7).toNat

/-- Modelled from the spec: the UTC offset, in seconds, of the target
timezone "Europe/London" at a given instant.  The current jiff-based
implementation resolves the zone through the IANA database; this model
implements the current UK daylight-saving rule (British Summer Time,
UTC+1, between 01:00 UTC on the last Sunday of March and 01:00 UTC on
the last Sunday of October), which agrees with the database throughout
the era of the service's data. -/
def londonOffsetAt (t : Int) : Int :=
  let y := (civilFromDays (Int.ediv t 86400)).1
  let bstStart := 86400 * daysFromCivil y 3 (lastSundayOfMonth y 3) + 3600
  let bstStop := 86400 * daysFromCivil y 10 (lastSundayOfMonth y 10) + 3600
  if bstStart ≤ t ∧ t < bstStop then 3600 else 0

/-- The named time zones this system touches. -/
inductive Tz where
  | utc : Tz
  | europeLondon : Tz
deriving DecidableEq

/-- UTC offset of a zone at an instant, in seconds. -/
def Tz.offsetAt : Tz → Int → Int
  | .utc, _ => 0
  | .europeLondon, t => londonOffsetAt t

/-- A timezone-aware instant (`jiff::Zoned`): an absolute instant
together with the time zone it is attached to. -/
structure Zoned where
  timestamp : Int
  tz : Tz
deriving DecidableEq

/-- A civil calendar date (`jiff::civil::Date`). -/
structure Date where
  year : Int
  month : Nat
  day : Nat
deriving DecidableEq

/-- `jiff::Zoned::date`: the civil date of the instant in the attached
time zone. -/
def Zoned.date (z : Zoned) : Date :=
  let p := civilFromDays (Int.ediv (z.timestamp + z.tz.offsetAt z.timestamp) 86400)
  ⟨p.1, p.2.1, p.2.2⟩

/-- `jiff::Zoned` equality compares the underlying instants. -/
def Zoned.eqv (a b : Zoned) : Bool := a.timestamp == b.timestamp

/-- `jiff::Zoned` ordering compares the underlying instants. -/
def Zoned.cmp (a b : Zoned) : Ordering := compare a.timestamp b.timestamp

example : londonOffsetAt (civilToTimestamp ⟨2025, 8, 17, 6, 14, 18⟩) = 3600 := by decide
example : londonOffsetAt (civilToTimestamp ⟨2025, 1, 15, 6, 14, 18⟩) = 0 := by decide
example : lastSundayOfMonth 2025 3 = 30 := by decide
example : lastSundayOfMonth 2025 10 = 26 := by decide

/-! ## Wire datetime parsing -/

/-- Numeric value of an ASCII digit character. -/
def digitVal (c : Char) : Nat := c.toNat - 48

/-- Index of the first `.` in a string, if any (Rust `str::find('.')`). -/
def ffindDot : List Char → Option Nat
  | [] => none
  | c :: t => if c = '.' then some 0 else (ffindDot t).map (· + 1)

/-- The portion of a string strictly before its first `.` (the whole
string when it has no dot). -/
def stripAtFirstDot (s : List Char) : List Char :=
  match ffindDot s with
  | none => s
  | some i => s.take i

/-- Index of the last `.` in a string, if any (Rust `str::rfind('.')`). -/
def rfindDot : List Char → Option Nat
  | [] => none
  | c :: t =>
    match rfindDot t with
    | some i => some (i + 1)
    | none => if c = '.' then some 0 else none

/-- The portion of a string strictly before its last `.` (the whole
string when it has no dot); this is `value.split_at(idx).0` for the
index found by `rfind('.')` in src/src/parse.rs. -/
def stripAtLastDot (s : List Char) : List Char :=
  match rfindDot s with
  | none => s
  | some i => s.take i

/-- Parse a whole string against the `chrono` format `%Y-%m-%dT%H:%M:%S`
(the wire's civil-datetime encoding: a four-digit year, two-digit month,
day, hour, minute and second with literal separators, no trailing
characters, and the calendar/clock fields validated). -/
def parseCivilDateTime (s : List Char) : Option CivilDateTime :=
  match s with
  | [y1, y2, y3, y4, a1, m1, m2, a2, d1, d2, a3, h1, h2, a4, n1, n2, a5, s1, s2] =>
    if y1.isDigit && y2.isDigit && y3.isDigit && y4.isDigit && (a1 == '-') &&
       m1.isDigit && m2.isDigit && (a2 == '-') && d1.isDigit && d2.isDigit &&
       (a3 == 'T') && h1.isDigit && h2.isDigit && (a4 == ':') && n1.isDigit &&
       n2.isDigit && (a5 == ':') && s1.isDigit && s2.isDigit then
      let c : CivilDateTime :=
        { year := ((digitVal y1 * 10 + digitVal y2) * 10 + digitVal y3) * 10 + digitVal y4
          month := digitVal m1 * 10 + digitVal m2
          day := digitVal d1 * 10 + digitVal d2
          hour := digitVal h1 * 10 + digitVal h2
          minute := digitVal n1 * 10 + digitVal n2
          second := digitVal s1 * 10 + digitVal s2 }
      if validCivil c then some c else none
    else none
  | _ => none

/-- `parse::deserialize_datetime_without_tz` (src/src/parse.rs): find the
last `.` with `rfind`, keep only the part before it, parse that part
with `chrono` in `%Y-%m-%dT%H:%M:%S` format as a UTC instant
(`DateTime<Utc>`, modelled as epoch seconds); a `chrono` failure is
mapped through `serde::de::Error::custom`. -/
def deserialize_datetime_without_tz (s : List Char) : Except DecodeError Int :=
  match parseCivilDateTime (stripAtLastDot s) with
  | some c => .ok (civilToTimestamp c)
  | none => .error (.custom (stripAtLastDot s))

/-- `parse::deserialize_date_without_tz` (src/src/parse.rs): parse as a
civil datetime and keep the UTC calendar date (`NaiveDate`, modelled as
the day-level `Date`). -/
def deserialize_date_without_tz (s : List Char) : Except DecodeError Date :=
  match deserialize_datetime_without_tz s with
  | .ok t =>
    let p := civilFromDays (Int.ediv t 86400)
    .ok ⟨p.1, p.2.1, p.2.2⟩
  | .error e => .error e

/-- Modelled from the spec: `parse::datetime_without_tz`, the civil
datetime decoder of the current jiff-based parse module, which is not
under src/ (src/src/types.rs only references it in serde attributes).
Per the spec: split the input at the first `.` (if any), discard the
fractional part, parse the left portion as a civil datetime in
`YYYY-MM-DDTHH:MM:SS` format, interpret it as a UTC instant, then
convert to the target timezone "Europe/London". -/
def datetime_without_tz (s : List Char) : Except DecodeError Zoned :=
  match parseCivilDateTime (stripAtFirstDot s) with
  | some c => .ok { timestamp := civilToTimestamp c, tz := .europeLondon }
  | none => .error (.custom (stripAtFirstDot s))

/-- Whether the optional fractional-seconds suffix of an RFC-3339
string (everything after the first `.` of its timezone-less part) is a
non-empty run of digits, as the RFC grammar requires. -/
def fracWellFormed (base : List Char) : Bool :=
  match ffindDot base with
  | none => true
  | some i =>
    let frac := base.drop (i + 1)
    !frac.isEmpty && frac.all Char.isDigit

/-- Modelled from the spec: `parse::zulu_datetime_to_zoned`, the
Zulu-suffixed instant decoder of the current jiff-based parse module,
which is not under src/ (src/src/types.rs only references it in a serde
attribute).  Per the spec: an RFC-3339 string ending in `Z` with
optional fractional seconds is parsed directly as an instant and then
converted to the target timezone "Europe/London".  (Fractional seconds
are below this model's one-second resolution.) -/
def zulu_datetime_to_zoned (s : List Char) : Except DecodeError Zoned :=
  if s.getLast? = some 'Z' then
    if fracWellFormed s.dropLast then
      match parseCivilDateTime (stripAtFirstDot s.dropLast) with
      | some c => .ok { timestamp := civilToTimestamp c, tz := .europeLondon }
      | none => .error (.custom (stripAtFirstDot s.dropLast))
    else .error (.custom s.dropLast)
  else .error (.custom s)

example :
    datetime_without_tz (toL "2025-08-17T06:14:18") =
      .ok ⟨civilToTimestamp ⟨2025, 8, 17, 6, 14, 18⟩, .europeLondon⟩ := by decide
example :
    zulu_datetime_to_zoned (toL "2025-08-17T06:14:18.5Z") =
      .ok ⟨civilToTimestamp ⟨2025, 8, 17, 6, 14, 18⟩, .europeLondon⟩ := by decide
example : deserialize_datetime_without_tz (toL "2025-08-17T06:14:18.5") =
    .ok (civilToTimestamp ⟨2025, 8, 17, 6, 14, 18⟩) := by decide
example : (deserialize_datetime_without_tz (toL "2025-02-30T06:14:18")).isOkB = false := by decide

/-! ## Enum decoders -/

/-- `types::TidalEventType` (src/src/types.rs): high or low tide. -/
inductive TidalEventType where
  | HighWater : TidalEventType
  | LowWater : TidalEventType
deriving DecidableEq

/-- `types::LunarPhaseType` (src/src/types.rs): a phase of the moon. -/
inductive LunarPhaseType where
  | NewMoon : LunarPhaseType
  | FirstQuarter : LunarPhaseType
  | FullMoon : LunarPhaseType
  | LastQuarter : LunarPhaseType
deriving DecidableEq

/-- The first stage of both enum decoders: `u64::deserialize`.  A
negative wire integer is rejected by serde's `u64` visitor with an
`invalid_value` error whose expected description is "u64"; an integer
beyond the `u64` range is rejected with an `invalid_type` error. -/
def u64_deserialize (n : Int) : Except DecodeError Nat :=
  if n < 0 then .error (.invalidValueSigned n (toL "u64"))
  else if n < 2 ^ 64 then .ok n.toNat
  else .error (.invalidType (toL "u64"))

/-- `impl Deserialize for TidalEventType` (src/src/parse.rs): decode the
wire integer through `u64`, map 0 to `HighWater` and 1 to `LowWater`,
and reject anything else with an `invalid_value` error expecting
"an integer either 0 or 1". -/
def deserializeTidalEventType (n : Int) : Except DecodeError TidalEventType :=
  match u64_deserialize n with
  | .error e => .error e
  | .ok 0 => .ok .HighWater
  | .ok 1 => .ok .LowWater
  | .ok m => .error (.invalidValueUnsigned m (toL "an integer either 0 or 1"))

/-- `impl Deserialize for LunarPhaseType` (src/src/parse.rs): decode the
wire integer through `u64`, map 1–4 to the four phases in order, and
reject anything else with an `invalid_value` error expecting
"an integer from 1 to 4, inclusive.". -/
def deserializeLunarPhaseType (n : Int) : Except DecodeError LunarPhaseType :=
  match u64_deserialize n with
  | .error e => .error e
  | .ok 1 => .ok .NewMoon
  | .ok 2 => .ok .FirstQuarter
  | .ok 3 => .ok .FullMoon
  | .ok 4 => .ok .LastQuarter
  | .ok m => .error (.invalidValueUnsigned m (toL "an integer from 1 to 4, inclusive."))

/-- Does `pat` occur as a contiguous run inside `s`? -/
def isPre : List Char → List Char → Bool
  | [], _ => true
  | _ :: _, [] => false
  | a :: as, b :: bs => a == b && isPre as bs

/-- Substring test used to express "the error message states ...". -/
def hasSub (pat : List Char) : List Char → Bool
  | [] => isPre pat []
  | c :: t => isPre pat (c :: t) || hasSub pat t

/-- Whether a decode error states both the offending integer `n` and
the acceptable lunar-phase range "1 to 4". -/
def statesValueAndRange (n : Int) : DecodeError → Bool
  | .invalidValueUnsigned got e => ((got : Int) == n) && hasSub (toL "1 to 4") e
  | .invalidValueSigned got e => (got == n) && hasSub (toL "1 to 4") e
  | _ => false

/-! ## Station domain types (src/src/types.rs) -/

/-- `types::DecimalDegrees`: an `f64` geographic coordinate component,
modelled as `ℚ`. -/
structure DecimalDegrees where
  val : ℚ
deriving DecidableEq

/-- `types::Coordinates`: longitude first, then latitude — the order of
the fields matches the 2-element wire array. -/
structure Coordinates where
  longitude : DecimalDegrees
  latitude : DecimalDegrees
deriving DecidableEq

/-- `types::StationId`: an opaque string identifier. -/
structure StationId where
  val : List Char
deriving DecidableEq

/-- `types::Country`: the closed enumeration of countries. -/
inductive Country where
  | ChannelIslands : Country
  | England : Country
  | Ireland : Country
  | IsleOfMan : Country
  | NorthernIreland : Country
  | Scotland : Country
  | Wales : Country
deriving DecidableEq

/-- `impl FromStr for Country` (src/src/types.rs): each display string
maps to its variant; any other string is an error naming the
unexpected country. -/
def Country.from_str (s : List Char) : Except (List Char) Country :=
  if s = toL "Channel Islands" then .ok .ChannelIslands
  else if s = toL "England" then .ok .England
  else if s = toL "Ireland" then .ok .Ireland
  else if s = toL "Isle of Man" then .ok .IsleOfMan
  else if s = toL "Northern Ireland" then .ok .NorthernIreland
  else if s = toL "Scotland" then .ok .Scotland
  else if s = toL "Wales" then .ok .Wales
  else .error (toL "Unexpected country name " ++ '\"' :: s ++ ['\"'])

/-- `types::Station`: the flat station entity. -/
structure Station where
  id : StationId
  name : List Char
  country : Country
  location : Coordinates
  continuous_heights_available : Bool
deriving DecidableEq

/-- Lexicographic comparison of strings (Rust `String`/`str` ordering;
for ASCII wire data byte order and code-point order coincide). -/
def listCmp : List Char → List Char → Ordering
  | [], [] => .eq
  | [], _ :: _ => .lt
  | _ :: _, [] => .gt
  | a :: as, b :: bs =>
    match compare a.toNat b.toNat with
    | .eq => listCmp as bs
    | o => o

/-- `StationId` ordering: plain string ordering (derived `Ord`). -/
def StationId.cmp (a b : StationId) : Ordering := listCmp a.val b.val

/-- `impl PartialEq for Station` (src/src/types.rs): `self.id == other.id`. -/
def Station.eqv (a b : Station) : Bool := a.id == b.id

/-- `impl Ord for Station` (src/src/types.rs): `self.id.cmp(&other.id)`. -/
def Station.cmp (a b : Station) : Ordering := StationId.cmp a.id b.id

/-! ## Tide-prediction domain types (src/src/types.rs) -/

/-- `types::Metres`: an `f64` height, modelled as `ℚ`. -/
structure Metres where
  val : ℚ
deriving DecidableEq

/-- `types::TidalEvent`: an instance of low or high tide.  `date_time`
is a `jiff::Zoned`; there is no separately stored date field. -/
structure TidalEvent where
  date_time : Zoned
  event_type : TidalEventType
  height : Metres
  is_approximate_height : Option (List Char)
  is_approximate_time : Option (List Char)
deriving DecidableEq

/-- `TidalEvent::date` (src/src/types.rs): the calendar date of
`date_time`, i.e. of the instant in its attached timezone. -/
def TidalEvent.date (e : TidalEvent) : Date := e.date_time.date

/-- `impl PartialEq for TidalEvent` (src/src/types.rs):
`self.date_time == other.date_time`, where `jiff::Zoned` equality
compares instants. -/
def TidalEvent.eqv (a b : TidalEvent) : Bool := Zoned.eqv a.date_time b.date_time

/-- `impl Ord for TidalEvent` (src/src/types.rs):
`self.date_time.cmp(&other.date_time)`, where `jiff::Zoned` ordering
compares instants. -/
def TidalEvent.cmp (a b : TidalEvent) : Ordering := Zoned.cmp a.date_time b.date_time

/-! ## Station document decoding

The GeoJSON-like wire shapes (`StationFeature` and friends) are the
transient intermediate structures of src/src/parse.rs; the `Station`
entity they flatten into is `types::Station`.  The `country` property
of the current crate's properties decoder parses the wire string with
`Country::from_str` (src/src/types.rs); the jiff-era parse module that
wires these together is not under src/, so that glue is modelled from
the spec (see `decodeStationFeatureProperties`). -/

/-- `parse::StationFeatureGeometry`: the wrapper around a station's
coordinates.  (The source struct also stores the wire `type`
discriminator string transiently; it is write-only — decoded, never
read, and dropped by the flattening — so the model checks it during
decoding but does not store it.) -/
structure StationFeatureGeometry where
  coordinates : Coordinates
deriving DecidableEq

/-- `parse::StationFeatureProperties`: the station's flat details
(wire keys are PascalCase). -/
structure StationFeatureProperties where
  id : StationId
  name : List Char
  country : Country
  continuous_heights_available : Bool
deriving DecidableEq

/-- `parse::StationFeature`: one GeoJSON-like feature record.  (As for
the geometry, the transient write-only `type` discriminator string is
checked during decoding but not stored.) -/
structure StationFeature where
  geometry : StationFeatureGeometry
  properties : StationFeatureProperties
deriving DecidableEq

/-- `StationId`'s derived `Deserialize`: a newtype over a string, kept
verbatim (never parsed numerically). -/
def decodeStationId (j : Json) : Except DecodeError StationId :=
  match asStr j with
  | .ok s => .ok ⟨s⟩
  | .error e => .error e

/-- `Coordinates`' derived `Deserialize` applied to the wire's
2-element array: the first element is the longitude, the second the
latitude, matching the field declaration order. -/
def decodeCoordinates (j : Json) : Except DecodeError Coordinates :=
  match j with
  | .arr [a, b] =>
    match asNum a with
    | .error e => .error e
    | .ok lon =>
      match asNum b with
      | .error e => .error e
      | .ok lat => .ok ⟨⟨lon⟩, ⟨lat⟩⟩
  | .arr xs => .error (.invalidLength xs.length (toL "struct Coordinates with 2 elements"))
  | _ => .error (.invalidType (toL "struct Coordinates"))

/-- `StationFeatureGeometry`'s decoder: the `type` discriminator is
deserialized as a string and otherwise ignored; `coordinates` is the
2-element array. -/
def decodeStationFeatureGeometry (j : Json) : Except DecodeError StationFeatureGeometry :=
  match j with
  | .obj kvs =>
    match getField kvs (toL "type") with
    | .error e => .error e
    | .ok tj =>
      match asStr tj with
      | .error e => .error e
      | .ok _ =>
        match getField kvs (toL "coordinates") with
        | .error e => .error e
        | .ok cj =>
          match decodeCoordinates cj with
          | .error e => .error e
          | .ok c => .ok ⟨c⟩
  | _ => .error (.invalidType (toL "struct StationFeatureGeometry"))

/-- `StationFeatureProperties`' decoder (wire keys PascalCase).  The
`Country` field is parsed from the wire string with
`Country::from_str`; that glue is modelled from the spec (the current
parse module is not under src/), faithful to "Decoding an unrecognized
string is an error, not a default" and to the `Country`-typed field of
`types::Station`. -/
def decodeStationFeatureProperties (j : Json) : Except DecodeError StationFeatureProperties :=
  match j with
  | .obj kvs =>
    match getField kvs (toL "Id") with
    | .error e => .error e
    | .ok idj =>
      match decodeStationId idj with
      | .error e => .error e
      | .ok sid =>
        match getField kvs (toL "Name") with
        | .error e => .error e
        | .ok nj =>
          match asStr nj with
          | .error e => .error e
          | .ok nm =>
            match getField kvs (toL "Country") with
            | .error e => .error e
            | .ok cj =>
              match asStr cj with
              | .error e => .error e
              | .ok cs =>
                match Country.from_str cs with
                | .error m => .error (.custom m)
                | .ok c =>
                  match getField kvs (toL "ContinuousHeightsAvailable") with
                  | .error e => .error e
                  | .ok bj =>
                    match asBool bj with
                    | .error e => .error e
                    | .ok b => .ok ⟨sid, nm, c, b⟩
  | _ => .error (.invalidType (toL "struct StationFeatureProperties"))

/-- `StationFeature`'s decoder: the `type` discriminator is
deserialized as a string and otherwise ignored. -/
def decodeStationFeature (j : Json) : Except DecodeError StationFeature :=
  match j with
  | .obj kvs =>
    match getField kvs (toL "type") with
    | .error e => .error e
    | .ok tj =>
      match asStr tj with
      | .error e => .error e
      | .ok _ =>
        match getField kvs (toL "geometry") with
        | .error e => .error e
        | .ok gj =>
          match decodeStationFeatureGeometry gj with
          | .error e => .error e
          | .ok g =>
            match getField kvs (toL "properties") with
            | .error e => .error e
            | .ok pj =>
              match decodeStationFeatureProperties pj with
              | .error e => .error e
              | .ok p => .ok ⟨g, p⟩
  | _ => .error (.invalidType (toL "struct StationFeature"))

/-- The flattening step of `parse::deserialize_stations`
(src/src/parse.rs): one flat `Station` per feature, dropping the
discriminators. -/
def stationOfFeature (f : StationFeature) : Station :=
  { id := f.properties.id
    name := f.properties.name
    country := f.properties.country
    location := f.geometry.coordinates
    continuous_heights_available := f.properties.continuous_heights_available }

/-- `parse::deserialize_stations` (src/src/parse.rs): decode the wire
value as a sequence of `StationFeature`s, then map each feature to a
flat `Station` (an infallible conversion), preserving order. -/
def deserialize_stations (j : Json) : Except DecodeError (List Station) :=
  match j with
  | .arr xs =>
    match mapExcept decodeStationFeature xs with
    | .ok features => .ok (features.map stationOfFeature)
    | .error e => .error e
  | _ => .error (.invalidType (toL "a sequence"))

/-- `parse::StationsData` decoding followed by `stations_from_reader`'s
projection (src/src/lib.rs): the document's `features` field decoded
with `deserialize_stations`; the collection-level `type` discriminator
carries `#[serde(skip)]`, so no field named "type" is ever consulted
and an incoming one is ignored like any unknown key. -/
def stations_from_reader (j : Json) : Except DecodeError (List Station) :=
  match j with
  | .obj kvs =>
    match getField kvs (toL "features") with
    | .error e => .error e
    | .ok fj => deserialize_stations fj
  | _ => .error (.invalidType (toL "struct StationsData"))

/-! ## Tidal event decoding -/

/-- `types::TidalEvent`'s derived `Deserialize` (camelCase keys): the
`dateTime` string goes through the civil datetime decoder
`datetime_without_tz`; `eventType` through the `TidalEventType`
integer decoder; `height` is a number; the two approximation flags are
optional strings.  No `date` key is consulted: the calendar date is
derived from the instant instead. -/
def decodeTidalEventFields (kvs : List (List Char × Json)) : Except DecodeError TidalEvent :=
  match getField kvs (toL "dateTime") with
    | .error e => .error e
    | .ok dtj =>
      match asStr dtj with
      | .error e => .error e
      | .ok dts =>
        match datetime_without_tz dts with
        | .error e => .error e
        | .ok dt =>
          match getField kvs (toL "eventType") with
          | .error e => .error e
          | .ok etj =>
            match asInt etj with
            | .error e => .error e
            | .ok etn =>
              match deserializeTidalEventType etn with
              | .error e => .error e
              | .ok et =>
                match getField kvs (toL "height") with
                | .error e => .error e
                | .ok hj =>
                  match asNum hj with
                  | .error e => .error e
                  | .ok hq =>
                    match optStringField kvs (toL "isApproximateHeight") with
                    | .error e => .error e
                    | .ok iah =>
                      match optStringField kvs (toL "isApproximateTime") with
                      | .error e => .error e
                      | .ok iat =>
                        .ok { date_time := dt, event_type := et, height := ⟨hq⟩,
                              is_approximate_height := iah, is_approximate_time := iat }

/-- `types::TidalEvent`'s derived `Deserialize` at the JSON level: a
map is required and its fields are decoded by `decodeTidalEventFields`. -/
def decodeTidalEvent (j : Json) : Except DecodeError TidalEvent :=
  match j with
  | .obj kvs => decodeTidalEventFields kvs
  | _ => .error (.invalidType (toL "struct TidalEvent"))

/-! ## Supporting lemmas -/

theorem ffindDot_of_not_mem (s : List Char) (h : '.' ∉ s) : ffindDot s = none := by
  induction s with
  | nil => rfl
  | cons c t ih =>
    simp only [List.mem_cons, not_or] at h
    simp [ffindDot, if_neg (Ne.symm h.1), ih h.2]

theorem rfindDot_of_not_mem (s : List Char) (h : '.' ∉ s) : rfindDot s = none := by
  induction s with
  | nil => rfl
  | cons c t ih =>
    simp only [List.mem_cons, not_or] at h
    simp [rfindDot, ih h.2, if_neg (Ne.symm h.1)]

theorem rfindDot_append (D R : List Char) (hR : '.' ∉ R) :
    rfindDot (D ++ '.' :: R) = some D.length := by
  induction D with
  | nil => simp [rfindDot, rfindDot_of_not_mem R hR]
  | cons c t ih => simp [rfindDot, ih]

theorem take_len_append (D l : List Char) : (D ++ l).take D.length = D := by
  induction D with
  | nil => rfl
  | cons c t ih =>
    show c :: (t ++ l).take t.length = c :: t
    rw [ih]

theorem digit_ne_dot {c : Char} (h : c.isDigit = true) : '.' ≠ c := by
  intro hc
  rw [← hc] at h
  exact absurd h (by decide)

theorem sep_ne_dot {c d : Char} (h : (c == d) = true) (hd : ('.' : Char) ≠ d) : '.' ≠ c := by
  intro hc
  rw [beq_iff_eq] at h
  exact hd (hc.trans h)

theorem parseCivil_no_dot (s : List Char) (c : CivilDateTime)
    (h : parseCivilDateTime s = some c) : '.' ∉ s := by
  unfold parseCivilDateTime at h
  split at h
  · rename_i y1 y2 y3 y4 a1 m1 m2 a2 d1 d2 a3 h1 h2 a4 n1 n2 a5 s1 s2
    split at h
    · rename_i hg
      simp only [Bool.and_eq_true, and_assoc] at hg
      obtain ⟨hy1, hy2, hy3, hy4, ha1, hm1, hm2, ha2, hd1, hd2, ha3, hh1, hh2, ha4,
        hn1, hn2, ha5, hs1, hs2⟩ := hg
      intro hmem
      simp only [List.mem_cons, List.not_mem_nil, or_false] at hmem
      rcases hmem with hc|hc|hc|hc|hc|hc|hc|hc|hc|hc|hc|hc|hc|hc|hc|hc|hc|hc|hc
      · exact digit_ne_dot hy1 hc
      · exact digit_ne_dot hy2 hc
      · exact digit_ne_dot hy3 hc
      · exact digit_ne_dot hy4 hc
      · exact sep_ne_dot ha1 (by decide) hc
      · exact digit_ne_dot hm1 hc
      · exact digit_ne_dot hm2 hc
      · exact sep_ne_dot ha2 (by decide) hc
      · exact digit_ne_dot hd1 hc
      · exact digit_ne_dot hd2 hc
      · exact sep_ne_dot ha3 (by decide) hc
      · exact digit_ne_dot hh1 hc
      · exact digit_ne_dot hh2 hc
      · exact sep_ne_dot ha4 (by decide) hc
      · exact digit_ne_dot hn1 hc
      · exact digit_ne_dot hn2 hc
      · exact sep_ne_dot ha5 (by decide) hc
      · exact digit_ne_dot hs1 hc
      · exact digit_ne_dot hs2 hc
    · exact Option.noConfusion h
  · exact Option.noConfusion h

theorem mapExcept_ok_length {α β : Type} (f : α → Except DecodeError β) (xs : List α)
    (ys : List β) (h : mapExcept f xs = .ok ys) : ys.length = xs.length := by
  induction xs generalizing ys with
  | nil =>
    simp only [mapExcept] at h
    cases h
    rfl
  | cons x t ih =>
    simp only [mapExcept] at h
    cases hfx : f x with
    | error e => rw [hfx] at h; exact Except.noConfusion h
    | ok y =>
      rw [hfx] at h
      cases hmt : mapExcept f t with
      | error e => rw [hmt] at h; exact Except.noConfusion h
      | ok ys' =>
        rw [hmt] at h
        cases h
        simp [ih ys' hmt]

theorem mapExcept_ok_get {α β : Type} (f : α → Except DecodeError β) (xs : List α)
    (ys : List β) (h : mapExcept f xs = .ok ys) (i : Nat) (h1 : i < xs.length)
    (h2 : i < ys.length) : f (xs.get ⟨i, h1⟩) = .ok (ys.get ⟨i, h2⟩) := by
  induction xs generalizing ys i with
  | nil => exact absurd h1 (by simp)
  | cons x t ih =>
    simp only [mapExcept] at h
    cases hfx : f x with
    | error e => rw [hfx] at h; exact Except.noConfusion h
    | ok y =>
      rw [hfx] at h
      cases hmt : mapExcept f t with
      | error e => rw [hmt] at h; exact Except.noConfusion h
      | ok ys' =>
        rw [hmt] at h
        cases h
        cases i with
        | zero => simpa using hfx
        | succ j =>
          exact ih ys' hmt j (Nat.lt_of_succ_lt_succ h1) (Nat.lt_of_succ_lt_succ h2)

theorem mapExcept_error_of_mem {α β : Type} (f : α → Except DecodeError β) (xs : List α)
    (hf : ∃ x ∈ xs, (f x).isOkB = false) : (mapExcept f xs).isOkB = false := by
  induction xs with
  | nil => obtain ⟨a, ha, _⟩ := hf; exact absurd ha (by simp)
  | cons x t ih =>
    obtain ⟨a, ha, hfa⟩ := hf
    simp only [mapExcept]
    rcases List.mem_cons.mp ha with rfl | hat
    · cases hfx : f a with
      | error e => rfl
      | ok y => rw [hfx] at hfa; exact absurd hfa (by simp [Except.isOkB])
    · cases hfx : f x with
      | error e => rfl
      | ok y =>
        have := ih ⟨a, hat, hfa⟩
        cases hmt : mapExcept f t with
        | error e => rfl
        | ok ys => rw [hmt] at this; exact absurd this (by simp [Except.isOkB])

theorem lookupKey_append_ne (kvs : List (List Char × Json)) (k : List Char) (v : Json)
    (key : List Char) (h : k ≠ key) :
    lookupKey (kvs ++ [(k, v)]) key = lookupKey kvs key := by
  induction kvs with
  | nil => simp [lookupKey, if_neg h]
  | cons p t ih =>
    obtain ⟨k', v'⟩ := p
    simp only [List.cons_append, lookupKey]
    split
    · rfl
    · exact ih

/-! ## Claim theorems -/

/-- C1: For every wire datetime accepted by the decoders (both the
timezone-less civil encoding and the Zulu-suffixed encoding), the
decoded value is a timezone-aware instant attached to the
Europe/London zone — obtained by parsing the civil fields as UTC
(`civilToTimestamp`) and then converting to that target zone — not a
naive timestamp and not a raw UTC instant. -/
theorem decoded_instants_attached_to_london_C1 (s : List Char) (z : Zoned) :
    (datetime_without_tz s = .ok z →
      z.tz = Tz.europeLondon ∧ z.tz ≠ Tz.utc ∧
      ∃ c, parseCivilDateTime (stripAtFirstDot s) = some c ∧
        z.timestamp = civilToTimestamp c) ∧
    (zulu_datetime_to_zoned s = .ok z →
      z.tz = Tz.europeLondon ∧ z.tz ≠ Tz.utc ∧
      ∃ c, parseCivilDateTime (stripAtFirstDot s.dropLast) = some c ∧
        z.timestamp = civilToTimestamp c) := by
  constructor
  · intro h
    unfold datetime_without_tz at h
    split at h
    · rename_i c hc
      cases h
      exact ⟨rfl, fun hh => Tz.noConfusion hh, c, hc, rfl⟩
    · exact Except.noConfusion h
  · intro h
    unfold zulu_datetime_to_zoned at h
    split at h
    · split at h
      · split at h
        · rename_i c hc
          cases h
          exact ⟨rfl, fun hh => Tz.noConfusion hh, c, hc, rfl⟩
        · exact Except.noConfusion h
      · exact Except.noConfusion h
    · exact Except.noConfusion h

/-- Witness for C1 at concrete accepted inputs of both encodings. -/
theorem decoded_instants_attached_to_london_C1_witness :
    (datetime_without_tz (toL "2025-08-17T06:14:18.5") =
      .ok ⟨civilToTimestamp ⟨2025, 8, 17, 6, 14, 18⟩, .europeLondon⟩) ∧
    (Zoned.tz ⟨civilToTimestamp ⟨2025, 8, 17, 6, 14, 18⟩, .europeLondon⟩ = Tz.europeLondon ∧
      Zoned.tz ⟨civilToTimestamp ⟨2025, 8, 17, 6, 14, 18⟩, .europeLondon⟩ ≠ Tz.utc ∧
      ∃ c, parseCivilDateTime (stripAtFirstDot (toL "2025-08-17T06:14:18.5")) = some c ∧
        Zoned.timestamp ⟨civilToTimestamp ⟨2025, 8, 17, 6, 14, 18⟩, .europeLondon⟩ =
          civilToTimestamp c) ∧
    (zulu_datetime_to_zoned (toL "2025-08-18T00:30:00Z") =
      .ok ⟨civilToTimestamp ⟨2025, 8, 18, 0, 30, 0⟩, .europeLondon⟩) ∧
    (Zoned.tz ⟨civilToTimestamp ⟨2025, 8, 18, 0, 30, 0⟩, .europeLondon⟩ = Tz.europeLondon ∧
      Zoned.tz ⟨civilToTimestamp ⟨2025, 8, 18, 0, 30, 0⟩, .europeLondon⟩ ≠ Tz.utc ∧
      ∃ c, parseCivilDateTime (stripAtFirstDot (toL "2025-08-18T00:30:00Z").dropLast) = some c ∧
        Zoned.timestamp ⟨civilToTimestamp ⟨2025, 8, 18, 0, 30, 0⟩, .europeLondon⟩ =
          civilToTimestamp c) := by
  have h1 : datetime_without_tz (toL "2025-08-17T06:14:18.5") =
      .ok ⟨civilToTimestamp ⟨2025, 8, 17, 6, 14, 18⟩, .europeLondon⟩ := by decide
  have h2 : zulu_datetime_to_zoned (toL "2025-08-18T00:30:00Z") =
      .ok ⟨civilToTimestamp ⟨2025, 8, 18, 0, 30, 0⟩, .europeLondon⟩ := by decide
  exact ⟨h1, (decoded_instants_attached_to_london_C1 _ _).1 h1,
    h2, (decoded_instants_attached_to_london_C1 _ _).2 h2⟩

/-- C2 counterexample: on `"2025-01-01T00:00:00.5.5"` the portion
before the *first* `.` is a valid civil datetime, so under the claimed
first-occurrence splitting the decode would succeed; the decoder in
src/src/parse.rs splits at the *last* `.` (`rfind`) and fails. -/
theorem civil_split_first_dot_C2_counterexample :
    (deserialize_datetime_without_tz (toL "2025-01-01T00:00:00.5.5")).isOkB = false ∧
    parseCivilDateTime (stripAtFirstDot (toL "2025-01-01T00:00:00.5.5")) =
      some ⟨2025, 1, 1, 0, 0, 0⟩ ∧
    stripAtLastDot (toL "2025-01-01T00:00:00.5.5") = toL "2025-01-01T00:00:00.5" := by
  exact ⟨by decide, by decide, by decide⟩

/-- C2 (amended): the civil-datetime decoder locates the
fractional-seconds part by the *last* occurrence of `.` in the string
(`rfind`), discards it entirely and parses only the portion before it
in `YYYY-MM-DDTHH:MM:SS` format; consequently, for every string `D`
without a `.` (in particular every valid civil-datetime string without
a fractional suffix), decoding `D` and decoding `D ++ "." ++ anyDigits`
yield the identical result. -/
theorem civil_split_last_dot_C2 :
    (∀ E digits : List Char, '.' ∉ digits →
      deserialize_datetime_without_tz (E ++ '.' :: digits) =
        (match parseCivilDateTime E with
          | some c => .ok (civilToTimestamp c)
          | none => .error (.custom E))) ∧
    (∀ D digits : List Char, '.' ∉ D → '.' ∉ digits →
      deserialize_datetime_without_tz (D ++ '.' :: digits) =
        deserialize_datetime_without_tz D) := by
  have hstrip : ∀ E digits : List Char, '.' ∉ digits →
      stripAtLastDot (E ++ '.' :: digits) = E := by
    intro E digits hd
    unfold stripAtLastDot
    rw [rfindDot_append E digits hd]
    exact take_len_append E ('.' :: digits)
  constructor
  · intro E digits hd
    unfold deserialize_datetime_without_tz
    rw [hstrip E digits hd]
  · intro D digits hD hd
    unfold deserialize_datetime_without_tz
    rw [hstrip D digits hd]
    unfold stripAtLastDot
    rw [rfindDot_of_not_mem D hD]

/-- Witness for C2 at a concrete fraction-free civil string. -/
theorem civil_split_last_dot_C2_witness :
    deserialize_datetime_without_tz (toL "2025-08-17T06:14:18" ++ '.' :: toL "5") =
      deserialize_datetime_without_tz (toL "2025-08-17T06:14:18") :=
  civil_split_last_dot_C2.2 (toL "2025-08-17T06:14:18") (toL "5") (by decide) (by decide)

/-- C9: for every absolute instant — given through the civil wire
string `s` that denotes it, with `c` its parsed civil fields and
`civilToTimestamp c` the instant — decoding the timezone-less civil
string and decoding the equivalent Zulu-suffixed RFC-3339 string
(`s ++ "Z"`) yield the identical decoded result: the same instant
converted to the target timezone Europe/London. -/
theorem zulu_civil_equivalence_C9 (s : List Char) (c : CivilDateTime)
    (h : parseCivilDateTime s = some c) :
    datetime_without_tz s = .ok ⟨civilToTimestamp c, .europeLondon⟩ ∧
    zulu_datetime_to_zoned (s ++ ['Z']) = .ok ⟨civilToTimestamp c, .europeLondon⟩ ∧
    datetime_without_tz s = zulu_datetime_to_zoned (s ++ ['Z']) := by
  have hnd : '.' ∉ s := parseCivil_no_dot s c h
  have hff : ffindDot s = none := ffindDot_of_not_mem s hnd
  have hstrip : stripAtFirstDot s = s := by unfold stripAtFirstDot; rw [hff]
  have h1 : datetime_without_tz s = .ok ⟨civilToTimestamp c, .europeLondon⟩ := by
    unfold datetime_without_tz
    rw [hstrip, h]
  have h2 : zulu_datetime_to_zoned (s ++ ['Z']) =
      .ok ⟨civilToTimestamp c, .europeLondon⟩ := by
    unfold zulu_datetime_to_zoned
    rw [List.getLast?_concat, List.dropLast_concat, if_pos rfl]
    have hfw : fracWellFormed s = true := by unfold fracWellFormed; rw [hff]
    rw [hfw, if_pos rfl, hstrip, h]
  exact ⟨h1, h2, h1.trans h2.symm⟩

/-- Witness for C9 at a concrete instant. -/
theorem zulu_civil_equivalence_C9_witness :
    datetime_without_tz (toL "2025-08-18T00:30:00") =
      .ok ⟨civilToTimestamp ⟨2025, 8, 18, 0, 30, 0⟩, .europeLondon⟩ ∧
    zulu_datetime_to_zoned (toL "2025-08-18T00:30:00" ++ ['Z']) =
      .ok ⟨civilToTimestamp ⟨2025, 8, 18, 0, 30, 0⟩, .europeLondon⟩ ∧
    datetime_without_tz (toL "2025-08-18T00:30:00") =
      zulu_datetime_to_zoned (toL "2025-08-18T00:30:00" ++ ['Z']) :=
  zulu_civil_equivalence_C9 (toL "2025-08-18T00:30:00") ⟨2025, 8, 18, 0, 30, 0⟩ (by decide)

/-- C5: the tidal-event-type decoder returns `HighWater` for 0,
`LowWater` for 1, and a decode error for every other wire integer,
negative values included — never a default variant. -/
theorem tidal_event_type_decoder_C5 :
    deserializeTidalEventType 0 = .ok .HighWater ∧
    deserializeTidalEventType 1 = .ok .LowWater ∧
    ∀ n : Int, n ≠ 0 → n ≠ 1 → (deserializeTidalEventType n).isOkB = false := by
  refine ⟨by decide, by decide, ?_⟩
  intro n h0 h1
  by_cases hneg : n < 0
  · simp [deserializeTidalEventType, u64_deserialize, hneg, Except.isOkB]
  · by_cases hbig : n < 2 ^ 64
    · have hu : u64_deserialize n = .ok n.toNat := by
        unfold u64_deserialize
        rw [if_neg hneg, if_pos hbig]
      rw [deserializeTidalEventType, hu]
      have ht0 : n.toNat ≠ 0 := by omega
      have ht1 : n.toNat ≠ 1 := by omega
      cases hnt : n.toNat with
      | zero => exact absurd hnt ht0
      | succ m =>
        cases m with
        | zero => exact absurd hnt ht1
        | succ k => rfl
    · have hu : u64_deserialize n = .error (.invalidType (toL "u64")) := by
        unfold u64_deserialize
        rw [if_neg hneg, if_neg hbig]
      rw [deserializeTidalEventType, hu]
      rfl

/-- Witness for C5 at the concrete out-of-range integers 2 and -1. -/
theorem tidal_event_type_decoder_C5_witness :
    (deserializeTidalEventType 2).isOkB = false ∧
    (deserializeTidalEventType (-1)).isOkB = false :=
  ⟨tidal_event_type_decoder_C5.2.2 2 (by decide) (by decide),
   tidal_event_type_decoder_C5.2.2 (-1) (by decide) (by decide)⟩

/-- C6 counterexample: at the concrete wire integer -1 the lunar-phase
decoder fails at the `u64` stage with an error whose expected
description is "u64"; that error does not state the acceptable range
"1 to 4", refuting the claim that every rejected integer gets an error
stating that range. -/
theorem lunar_phase_decoder_C6_counterexample :
    deserializeLunarPhaseType (-1) = .error (.invalidValueSigned (-1) (toL "u64")) ∧
    statesValueAndRange (-1) (.invalidValueSigned (-1) (toL "u64")) = false := by
  exact ⟨by decide, by decide⟩

/-- C6 (amended): the lunar-phase decoder returns `NewMoon` for 1,
`FirstQuarter` for 2, `FullMoon` for 3, `LastQuarter` for 4 and an
error for every other wire integer, never a silent default; for every
other *non-negative* integer in the `u64` range the error states both
the acceptable range (1 to 4 inclusive) and the offending value, while
negative integers are rejected earlier, by the unsigned-integer stage,
with an error stating the offending value but the expected type "u64"
rather than the range. -/
theorem lunar_phase_decoder_C6 :
    deserializeLunarPhaseType 1 = .ok .NewMoon ∧
    deserializeLunarPhaseType 2 = .ok .FirstQuarter ∧
    deserializeLunarPhaseType 3 = .ok .FullMoon ∧
    deserializeLunarPhaseType 4 = .ok .LastQuarter ∧
    (∀ n : Int, ¬(n = 1 ∨ n = 2 ∨ n = 3 ∨ n = 4) →
      (deserializeLunarPhaseType n).isOkB = false) ∧
    (∀ n : Int, 0 ≤ n → n < 2 ^ 64 → ¬(n = 1 ∨ n = 2 ∨ n = 3 ∨ n = 4) →
      deserializeLunarPhaseType n =
        .error (.invalidValueUnsigned n.toNat (toL "an integer from 1 to 4, inclusive.")) ∧
      statesValueAndRange n
        (.invalidValueUnsigned n.toNat (toL "an integer from 1 to 4, inclusive.")) = true) ∧
    (∀ n : Int, n < 0 →
      deserializeLunarPhaseType n = .error (.invalidValueSigned n (toL "u64"))) := by
  have hcatch : ∀ n : Int, 0 ≤ n → n < 2 ^ 64 → ¬(n = 1 ∨ n = 2 ∨ n = 3 ∨ n = 4) →
      deserializeLunarPhaseType n =
        .error (.invalidValueUnsigned n.toNat (toL "an integer from 1 to 4, inclusive.")) := by
    intro n hge hlt hne
    have hu : u64_deserialize n = .ok n.toNat := by
      unfold u64_deserialize
      rw [if_neg (not_lt.mpr hge), if_pos hlt]
    rw [deserializeLunarPhaseType, hu]
    have h1 : n.toNat ≠ 1 := by omega
    have h2 : n.toNat ≠ 2 := by omega
    have h3 : n.toNat ≠ 3 := by omega
    have h4 : n.toNat ≠ 4 := by omega
    cases hnt : n.toNat with
    | zero => rfl
    | succ a =>
      cases a with
      | zero => exact absurd hnt h1
      | succ b =>
        cases b with
        | zero => exact absurd hnt h2
        | succ c =>
          cases c with
          | zero => exact absurd hnt h3
          | succ d =>
            cases d with
            | zero => exact absurd hnt h4
            | succ e => rfl
  have hneg : ∀ n : Int, n < 0 →
      deserializeLunarPhaseType n = .error (.invalidValueSigned n (toL "u64")) := by
    intro n hn
    have hu : u64_deserialize n = .error (.invalidValueSigned n (toL "u64")) := by
      unfold u64_deserialize
      rw [if_pos hn]
    rw [deserializeLunarPhaseType, hu]
  refine ⟨by decide, by decide, by decide, by decide, ?_, ?_, hneg⟩
  · intro n hne
    by_cases hn : n < 0
    · rw [hneg n hn]; rfl
    · by_cases hlt : n < 2 ^ 64
      · rw [hcatch n (not_lt.mp hn) hlt hne]; rfl
      · have hu : u64_deserialize n = .error (.invalidType (toL "u64")) := by
          unfold u64_deserialize
          rw [if_neg hn, if_neg hlt]
        rw [deserializeLunarPhaseType, hu]
        rfl
  · intro n hge hlt hne
    refine ⟨hcatch n hge hlt hne, ?_⟩
    have : ((n.toNat : Int) == n) = true := by
      rw [beq_iff_eq]; omega
    simp only [statesValueAndRange, this, Bool.true_and]
    decide

/-- C4: `Station` equality and ordering are determined by the
`StationId` field alone — two `Station`s with the same id but different
names, countries, locations or flags compare equal and order
identically — and `TidalEvent` equality and ordering are determined by
the instant alone.  (The source derives no hash function for `Station`
or `StationId`; the comparison operations the code does define are
exactly these, and both factor through the identity field, so any
hashing consistent with this equality is id-determined as well.) -/
theorem comparisons_by_identity_C4 :
    (∀ a b : Station, Station.eqv a b = true ↔ a.id = b.id) ∧
    (∀ a a' b b' : Station, a.id = a'.id → b.id = b'.id →
      Station.eqv a b = Station.eqv a' b' ∧ Station.cmp a b = Station.cmp a' b') ∧
    (∀ e f : TidalEvent, TidalEvent.eqv e f = true ↔
      e.date_time.timestamp = f.date_time.timestamp) ∧
    (∀ e e' f f' : TidalEvent, e.date_time.timestamp = e'.date_time.timestamp →
      f.date_time.timestamp = f'.date_time.timestamp →
      TidalEvent.eqv e f = TidalEvent.eqv e' f' ∧
        TidalEvent.cmp e f = TidalEvent.cmp e' f') := by
  refine ⟨?_, ?_, ?_, ?_⟩
  · intro a b
    simp [Station.eqv, beq_iff_eq]
  · intro a a' b b' ha hb
    constructor
    · simp [Station.eqv, ha, hb]
    · simp [Station.cmp, ha, hb]
  · intro e f
    simp [TidalEvent.eqv, Zoned.eqv, beq_iff_eq]
  · intro e e' f f' he hf
    constructor
    · simp [TidalEvent.eqv, Zoned.eqv, he, hf]
    · simp [TidalEvent.cmp, Zoned.cmp, he, hf]

/-- Witness for C4: a concrete pair of stations with the same id but
different names, countries, locations and flags compares equal, and a
concrete pair of events with the same instant but different heights
and event types compares equal. -/
theorem comparisons_by_identity_C4_witness :
    Station.eqv
      ⟨⟨toL "0053"⟩, toL "Sandown", .England, ⟨⟨(-1.15 : ℚ)⟩, ⟨(50.65 : ℚ)⟩⟩, true⟩
      ⟨⟨toL "0053"⟩, toL "Elsewhere", .Wales, ⟨⟨(0 : ℚ)⟩, ⟨(0 : ℚ)⟩⟩, false⟩ = true ∧
    TidalEvent.eqv
      ⟨⟨1755407658, .europeLondon⟩, .HighWater, ⟨(3.5 : ℚ)⟩, none, none⟩
      ⟨⟨1755407658, .europeLondon⟩, .LowWater, ⟨(1.5 : ℚ)⟩, some (toL "x"), none⟩ = true :=
  ⟨(comparisons_by_identity_C4.1 _ _).mpr rfl,
   (comparisons_by_identity_C4.2.2.1 _ _).mpr rfl⟩

theorem datetime_without_tz_ok_tz (s : List Char) (z : Zoned)
    (h : datetime_without_tz s = .ok z) : z.tz = Tz.europeLondon := by
  unfold datetime_without_tz at h
  split at h
  · cases h; rfl
  · exact Except.noConfusion h

theorem decodeTidalEvent_obj (kvs : List (List Char × Json)) :
    decodeTidalEvent (Json.obj kvs) = decodeTidalEventFields kvs := rfl

theorem decodeTidalEvent_ignores_date (kvs : List (List Char × Json)) (v : Json) :
    decodeTidalEvent (Json.obj (kvs ++ [(toL "date", v)])) = decodeTidalEvent (Json.obj kvs) := by
  rw [decodeTidalEvent_obj, decodeTidalEvent_obj]
  unfold decodeTidalEventFields getField optStringField
  rw [lookupKey_append_ne kvs (toL "date") v (toL "dateTime") (by decide),
      lookupKey_append_ne kvs (toL "date") v (toL "eventType") (by decide),
      lookupKey_append_ne kvs (toL "date") v (toL "height") (by decide),
      lookupKey_append_ne kvs (toL "date") v (toL "isApproximateHeight") (by decide),
      lookupKey_append_ne kvs (toL "date") v (toL "isApproximateTime") (by decide)]

/-- C3: for every decoded `TidalEvent`, its calendar date equals the
date component of its timezone-aware instant taken in the target
timezone Europe/London (the attached zone of every decoded instant),
and the date is derived from the instant rather than parsed from a
separate wire date field: adding or changing a wire `date` field does
not affect the decoded event at all. -/
theorem tidal_event_date_derived_C3 (kvs : List (List Char × Json)) (e : TidalEvent)
    (h : decodeTidalEvent (Json.obj kvs) = .ok e) :
    e.date_time.tz = Tz.europeLondon ∧
    TidalEvent.date e = Zoned.date ⟨e.date_time.timestamp, Tz.europeLondon⟩ ∧
    (∀ v : Json, decodeTidalEvent (Json.obj (kvs ++ [(toL "date", v)])) = .ok e) := by
  have htz : e.date_time.tz = Tz.europeLondon := by
    rw [decodeTidalEvent_obj] at h
    unfold decodeTidalEventFields at h
    repeat' first
      | exact Except.noConfusion h
      | split at h
    cases h
    exact datetime_without_tz_ok_tz _ _ (by assumption)
  refine ⟨htz, ?_, fun v => (decodeTidalEvent_ignores_date kvs v).trans h⟩
  unfold TidalEvent.date
  obtain ⟨⟨ts, tz⟩, et, hgt, iah, iat⟩ := e
  simp only at htz
  rw [htz]

theorem deserialize_stations_arr (fs : List Json) :
    deserialize_stations (Json.arr fs) =
      (match mapExcept decodeStationFeature fs with
        | .ok features => .ok (features.map stationOfFeature)
        | .error e => .error e) := rfl

theorem stations_from_reader_obj (kvs : List (List Char × Json)) :
    stations_from_reader (Json.obj kvs) =
      (match getField kvs (toL "features") with
        | .error e => .error e
        | .ok fj => deserialize_stations fj) := rfl

/-- The wire feature of the spec's round-trip example: station 0053
(Sandown), coordinates `[-1.15, 50.65]`. -/
def sandownJson : Json :=
  Json.obj [(toL "type", .str (toL "Feature")),
    (toL "geometry", Json.obj [(toL "type", .str (toL "Point")),
      (toL "coordinates", Json.arr [Json.num (-1.15), Json.num (50.65)])]),
    (toL "properties", Json.obj [(toL "Id", .str (toL "0053")),
      (toL "Name", .str (toL "Sandown")),
      (toL "Country", .str (toL "England")),
      (toL "ContinuousHeightsAvailable", .bool true)])]

/-- The station the example feature must decode to. -/
def sandownStation : Station :=
  { id := ⟨toL "0053"⟩, name := toL "Sandown", country := .England,
    location := ⟨⟨-1.15⟩, ⟨50.65⟩⟩, continuous_heights_available := true }

/-- C7: the stations decoder flattens each feature into one flat
`Station`, preserving input feature order with no implicit sort (the
i-th station comes from the i-th feature); station ids are kept as
opaque strings exactly as written (leading zeros preserved); the
2-element coordinate array is decoded longitude first; and the spec's
round-trip example decodes accordingly. -/
theorem stations_flattening_C7 :
    (∀ fs : List Json, ∀ stations : List Station,
      deserialize_stations (Json.arr fs) = .ok stations →
      stations.length = fs.length ∧
      ∀ i : Nat, ∀ h1 : i < fs.length, ∀ h2 : i < stations.length,
        ∃ f : StationFeature, decodeStationFeature (fs.get ⟨i, h1⟩) = .ok f ∧
          stations.get ⟨i, h2⟩ = stationOfFeature f) ∧
    (∀ s : List Char, decodeStationId (Json.str s) = .ok ⟨s⟩) ∧
    (∀ a b : ℚ, decodeCoordinates (Json.arr [Json.num a, Json.num b]) = .ok ⟨⟨a⟩, ⟨b⟩⟩) ∧
    deserialize_stations (Json.arr [sandownJson]) = .ok [sandownStation] := by
  refine ⟨?_, fun s => rfl, fun a b => rfl, rfl⟩
  intro fs stations h
  rw [deserialize_stations_arr] at h
  cases hm : mapExcept decodeStationFeature fs with
  | error e => rw [hm] at h; exact Except.noConfusion h
  | ok features =>
    rw [hm] at h
    cases h
    have hlen := mapExcept_ok_length decodeStationFeature fs features hm
    constructor
    · simp [hlen]
    · intro i h1 h2
      have h2' : i < features.length := by simpa using h2
      refine ⟨features.get ⟨i, h2'⟩, mapExcept_ok_get decodeStationFeature fs features hm i h1 h2', ?_⟩
      simp [List.getElem_map]

/-- Witness for C7 at the spec's one-feature example document. -/
theorem stations_flattening_C7_witness :
    [sandownStation].length = [sandownJson].length :=
  (stations_flattening_C7.1 [sandownJson] [sandownStation] rfl).1

/-- A wire feature whose country string "Cornwall" is not a recognized
country: its properties decode fails. -/
def cornwallJson : Json :=
  Json.obj [(toL "type", .str (toL "Feature")),
    (toL "geometry", Json.obj [(toL "type", .str (toL "Point")),
      (toL "coordinates", Json.arr [Json.num (-5.05), Json.num (50.15)])]),
    (toL "properties", Json.obj [(toL "Id", .str (toL "0546")),
      (toL "Name", .str (toL "Truro")),
      (toL "Country", .str (toL "Cornwall")),
      (toL "ContinuousHeightsAvailable", .bool false)])]

/-- C8: a station document containing at least one malformed feature
fails to decode as a whole — no partial station list is produced —
even when every other feature is valid; concretely, a document whose
only flaw is one feature with the unrecognized country "Cornwall"
fails entirely although the same document without that feature
decodes. -/
theorem stations_all_or_nothing_C8 (kvs : List (List Char × Json)) (fs : List Json)
    (hf : lookupKey kvs (toL "features") = some (Json.arr fs))
    (hbad : ∃ f ∈ fs, (decodeStationFeature f).isOkB = false) :
    (stations_from_reader (Json.obj kvs)).isOkB = false := by
  have hg : getField kvs (toL "features") = .ok (Json.arr fs) := by
    unfold getField
    rw [hf]
  rw [stations_from_reader_obj, hg]
  show (deserialize_stations (Json.arr fs)).isOkB = false
  rw [deserialize_stations_arr]
  have herr := mapExcept_error_of_mem decodeStationFeature fs hbad
  cases hm : mapExcept decodeStationFeature fs with
  | error e => rfl
  | ok features => rw [hm] at herr; exact absurd herr (by simp [Except.isOkB])

/-- Witness for C8: the two-feature document `[sandown, cornwall]`
fails as a whole, while the document with only the valid feature
succeeds. -/
theorem stations_all_or_nothing_C8_witness :
    (stations_from_reader (Json.obj [(toL "type", .str (toL "FeatureCollection")),
      (toL "features", Json.arr [sandownJson, cornwallJson])])).isOkB = false ∧
    (stations_from_reader (Json.obj [(toL "type", .str (toL "FeatureCollection")),
      (toL "features", Json.arr [sandownJson])])).isOkB = true :=
  ⟨stations_all_or_nothing_C8 _ [sandownJson, cornwallJson] rfl
      ⟨cornwallJson, by simp, rfl⟩,
   rfl⟩

/-- A feature-shaped wire object with given discriminator strings,
coordinate value and properties value. -/
def mkFeatureJson (ft gt : List Char) (c p : Json) : Json :=
  Json.obj [(toL "type", .str ft),
    (toL "geometry", Json.obj [(toL "type", .str gt), (toL "coordinates", c)]),
    (toL "properties", p)]

/-- A station document whose three `type` discriminators hold
non-canonical values (none equal to "FeatureCollection" or "Point");
the rest is well-formed. -/
def weirdDoc : Json :=
  Json.obj [(toL "type", Json.num 42),
    (toL "features", Json.arr [mkFeatureJson (toL "Banana") (toL "Square")
      (Json.arr [Json.num (-1.15), Json.num (50.65)])
      (Json.obj [(toL "Id", .str (toL "0053")),
        (toL "Name", .str (toL "Sandown")),
        (toL "Country", .str (toL "England")),
        (toL "ContinuousHeightsAvailable", .bool true)])])]

/-- C10: station-document decoding never compares the `type`
discriminators against "FeatureCollection" or "Point": the
collection-level discriminator is skipped entirely (any JSON value,
ignored), the feature- and geometry-level discriminators are
deserialized as strings and then ignored (the decoded result is
independent of their contents), and a well-formed document with
arbitrary discriminator values decodes successfully. -/
theorem discriminators_ignored_C10 :
    (∀ v : Json, ∀ kvs : List (List Char × Json),
      stations_from_reader (Json.obj ((toL "type", v) :: kvs)) =
        stations_from_reader (Json.obj kvs)) ∧
    (∀ ft ft' gt gt' : List Char, ∀ c p : Json,
      decodeStationFeature (mkFeatureJson ft gt c p) =
        decodeStationFeature (mkFeatureJson ft' gt' c p)) ∧
    (stations_from_reader weirdDoc).isOkB = true := by
  refine ⟨?_, fun ft ft' gt gt' c p => rfl, rfl⟩
  intro v kvs
  rw [stations_from_reader_obj, stations_from_reader_obj]
  have hl : lookupKey ((toL "type", v) :: kvs) (toL "features") =
      lookupKey kvs (toL "features") := by
    show (if toL "type" = toL "features" then some v else lookupKey kvs (toL "features")) =
      lookupKey kvs (toL "features")
    rw [if_neg (by decide)]
  unfold getField
  rw [hl]

/-- A concrete wire tidal event used by the C3 witness. -/
def sampleEventKvs : List (List Char × Json) :=
  [(toL "dateTime", .str (toL "2025-08-17T06:14:18")),
   (toL "eventType", Json.num 0),
   (toL "height", Json.num (3.5 : ℚ)),
   (toL "isApproximateHeight", Json.null),
   (toL "isApproximateTime", Json.null)]

/-- The decoded event the C3 witness expects. -/
def sampleEvent : TidalEvent :=
  { date_time := ⟨civilToTimestamp ⟨2025, 8, 17, 6, 14, 18⟩, .europeLondon⟩,
    event_type := .HighWater, height := ⟨(3.5 : ℚ)⟩,
    is_approximate_height := none, is_approximate_time := none }

/-- Witness for C3 at a concrete decoded event. -/
theorem tidal_event_date_derived_C3_witness :
    decodeTidalEvent (Json.obj sampleEventKvs) = .ok sampleEvent ∧
    (sampleEvent.date_time.tz = Tz.europeLondon ∧
     TidalEvent.date sampleEvent =
       Zoned.date ⟨sampleEvent.date_time.timestamp, Tz.europeLondon⟩ ∧
     (∀ v : Json, decodeTidalEvent (Json.obj (sampleEventKvs ++ [(toL "date", v)])) =
       .ok sampleEvent)) := by
  have h : decodeTidalEvent (Json.obj sampleEventKvs) = .ok sampleEvent := rfl
  exact ⟨h, tidal_event_date_derived_C3 sampleEventKvs sampleEvent h⟩

/-- Witness for C6 at the concrete out-of-range integers 7 and -3. -/
theorem lunar_phase_decoder_C6_witness :
    (deserializeLunarPhaseType 7).isOkB = false ∧
    (deserializeLunarPhaseType 7 =
        .error (.invalidValueUnsigned (Int.toNat 7) (toL "an integer from 1 to 4, inclusive.")) ∧
      statesValueAndRange 7
        (.invalidValueUnsigned (Int.toNat 7) (toL "an integer from 1 to 4, inclusive.")) = true) ∧
    deserializeLunarPhaseType (-3) = .error (.invalidValueSigned (-3) (toL "u64")) :=
  ⟨lunar_phase_decoder_C6.2.2.2.2.1 7 (by decide),
   lunar_phase_decoder_C6.2.2.2.2.2.1 7 (by decide) (by decide) (by decide),
   lunar_phase_decoder_C6.2.2.2.2.2.2 (-3) (by decide)⟩
